import Mathlib

/-!
# Verification of the aus-house-select data-shaping layer

Shallow embedding of the TypeScript data-shaping and aggregation utilities of
the `aus-house-select` repository (`web/src/utils/geojson.ts`,
`web/src/utils/schools.ts`, `web/src/utils/loaders.ts`), together with proofs
about the behaviour stated in the specification.

JavaScript numbers are modelled as rationals extended with the IEEE special
values (`Infinity`, `-Infinity`, `NaN`); property values are modelled by an
explicit `JsVal` type covering `undefined`, `null`, booleans, numbers and
strings.  Operations that can raise a `TypeError` at runtime (calling a string
method on a non-string) are modelled in the `Except String` monad.
-/

/-- A JavaScript number: a finite rational or one of the IEEE special values. -/
inductive JNum where
  | fin (q : ℚ)
  | posInf
  | negInf
  | nan
deriving DecidableEq, Repr

namespace JNum

/-- Models `Number.isNaN`. -/
def isNaN : JNum → Bool
  | .nan => true
  | _ => false

/-- Models `Number.isFinite`. -/
def isFinite : JNum → Bool
  | .fin _ => true
  | _ => false

end JNum

/-- Models `Math.min` on two numbers (NaN propagates). -/
def jmin : JNum → JNum → JNum
  | .nan, _ => .nan
  | _, .nan => .nan
  | .negInf, _ => .negInf
  | _, .negInf => .negInf
  | .posInf, b => b
  | a, .posInf => a
  | .fin a, .fin b => .fin (min a b)

/-- Models `Math.max` on two numbers (NaN propagates). -/
def jmax : JNum → JNum → JNum
  | .nan, _ => .nan
  | _, .nan => .nan
  | .posInf, _ => .posInf
  | _, .posInf => .posInf
  | .negInf, b => b
  | a, .negInf => a
  | .fin a, .fin b => .fin (max a b)

/-- Numeric value of a list of decimal digit characters. -/
def digitsVal (cs : List Char) : ℕ :=
  cs.foldl (fun n c => 10 * n + (c.toNat - 48)) 0

/-- Value of a hexadecimal digit character, if it is one. -/
def hexDigitVal (c : Char) : Option ℕ :=
  if '0' ≤ c ∧ c ≤ '9' then some (c.toNat - 48)
  else if 'a' ≤ c ∧ c ≤ 'f' then some (c.toNat - 87)
  else if 'A' ≤ c ∧ c ≤ 'F' then some (c.toNat - 55)
  else none

/-- Value of a list of digits in a given base, `none` if some char is invalid
or the list is empty.  Used to model the JS hex/octal/binary numeric literals. -/
def radixVal (base : ℕ) (cs : List Char) : Option ℕ :=
  if cs.isEmpty then none
  else cs.foldl (fun acc c =>
    match acc, hexDigitVal c with
    | some n, some d => if d < base then some (base * n + d) else none
    | _, _ => none) (some 0)

/-- Parse an unsigned decimal mantissa: `digits`, `digits.digits`, `.digits`
or `digits.` (at least one digit overall). -/
def parseDecMantissa (cs : List Char) : Option ℚ :=
  let intPart := cs.takeWhile Char.isDigit
  let rest := cs.dropWhile Char.isDigit
  match rest with
  | [] => if intPart.isEmpty then none else some (digitsVal intPart)
  | '.' :: frac =>
    if frac.all Char.isDigit && (!intPart.isEmpty || !frac.isEmpty) then
      some ((digitsVal intPart : ℚ) + (digitsVal frac : ℚ) / (10 ^ frac.length))
    else none
  | _ => none

/-- Parse a decimal exponent part (after the `e`/`E`). -/
def parseExpPart (cs : List Char) : Option ℤ :=
  match cs with
  | '+' :: ds => if !ds.isEmpty && ds.all Char.isDigit then some (digitsVal ds) else none
  | '-' :: ds => if !ds.isEmpty && ds.all Char.isDigit then some (-(digitsVal ds : ℤ)) else none
  | ds => if !ds.isEmpty && ds.all Char.isDigit then some (digitsVal ds) else none

/-- Parse an unsigned decimal numeric literal with optional exponent. -/
def parseUnsignedDec (cs : List Char) : Option ℚ := do
  let mant := cs.takeWhile (fun c => !(c = 'e' || c = 'E'))
  let rest := cs.dropWhile (fun c => !(c = 'e' || c = 'E'))
  match rest with
  | [] => parseDecMantissa mant
  | _ :: es => do
    let m ← parseDecMantissa mant
    let e ← parseExpPart es
    pure (m * (10 : ℚ) ^ e)

/-- Whitespace trim, models `String.prototype.trim` (ASCII fragment). -/
def jsTrim (s : String) : String :=
  ⟨((s.data.dropWhile Char.isWhitespace).reverse.dropWhile Char.isWhitespace).reverse⟩

/-- Models the JS builtin `Number()` conversion on strings (`StringToNumber`):
the empty/whitespace string is 0, `Infinity` with optional sign, decimal
literals with optional exponent, and `0x`/`0o`/`0b` radix literals; anything
else is NaN. -/
def jsStrToNumber (s : String) : JNum :=
  let t := (jsTrim s).data
  if t.isEmpty then .fin 0
  else
    match t with
    | '0' :: 'x' :: ds => match radixVal 16 ds with
      | some n => .fin n
      | none => .nan
    | '0' :: 'X' :: ds => match radixVal 16 ds with
      | some n => .fin n
      | none => .nan
    | '0' :: 'o' :: ds => match radixVal 8 ds with
      | some n => .fin n
      | none => .nan
    | '0' :: 'O' :: ds => match radixVal 8 ds with
      | some n => .fin n
      | none => .nan
    | '0' :: 'b' :: ds => match radixVal 2 ds with
      | some n => .fin n
      | none => .nan
    | '0' :: 'B' :: ds => match radixVal 2 ds with
      | some n => .fin n
      | none => .nan
    | _ =>
      let (sgn, body) : ℚ × List Char :=
        match t with
        | '+' :: r => (1, r)
        | '-' :: r => (-1, r)
        | r => (1, r)
      if body = "Infinity".data then
        (if sgn = 1 then .posInf else .negInf)
      else
        match parseUnsignedDec body with
        | some q => .fin (sgn * q)
        | none => .nan

/-- Models the JS builtin `parseInt(s, 10)`: skip leading whitespace, optional
sign, then the longest prefix of decimal digits; NaN (`none`) if there is none. -/
def jsParseInt (s : String) : Option ℤ :=
  let cs := s.data.dropWhile Char.isWhitespace
  let (sgn, cs) : ℤ × List Char :=
    match cs with
    | '-' :: r => (-1, r)
    | '+' :: r => (1, r)
    | r => (1, r)
  let ds := cs.takeWhile Char.isDigit
  if ds.isEmpty then none else some (sgn * (digitsVal ds : ℤ))

/-- A JavaScript property value (the scalar shapes occurring in the data). -/
inductive JsVal where
  | undefined
  | null
  | bool (b : Bool)
  | num (n : JNum)
  | str (s : String)
deriving DecidableEq, Repr

namespace JsVal

/-- JS truthiness. -/
def truthy : JsVal → Bool
  | .undefined => false
  | .null => false
  | .bool b => b
  | .num (.fin q) => decide (q ≠ 0)
  | .num .nan => false
  | .num _ => true
  | .str s => decide (s ≠ "")

end JsVal

/-- Decimal rendering of a rational whose denominator divides `10 ^ 20`
(models the JS number-to-string conversion on the terminating-decimal
fragment; other rationals get a fallback rendering). -/
def ratToDecimalString (q : ℚ) : String :=
  if q.den = 1 then toString q.num
  else
    match (List.range 21).find? (fun k => (q * (10 : ℚ) ^ k).den = 1) with
    | some k =>
      let m := (q * (10 : ℚ) ^ k).num
      let sgn := if m < 0 then "-" else ""
      let digits := toString m.natAbs
      let digits :=
        if digits.length ≤ k then ⟨List.replicate (k + 1 - digits.length) '0' ++ digits.data⟩
        else digits
      sgn ++ ⟨digits.data.take (digits.length - k)⟩ ++ "." ++ ⟨digits.data.drop (digits.length - k)⟩
    | none => toString q

/-- Models the JS builtin number-to-string conversion. -/
def jsNumToString : JNum → String
  | .fin q => ratToDecimalString q
  | .posInf => "Infinity"
  | .negInf => "-Infinity"
  | .nan => "NaN"

/-- Models the JS builtin `String()` conversion. -/
def jsToString : JsVal → String
  | .undefined => "undefined"
  | .null => "null"
  | .bool true => "true"
  | .bool false => "false"
  | .num n => jsNumToString n
  | .str s => s

/-- Models the JS builtin `Number()` conversion. -/
def jsToNumber : JsVal → JNum
  | .undefined => .nan
  | .null => .fin 0
  | .bool true => .fin 1
  | .bool false => .fin 0
  | .num n => n
  | .str s => jsStrToNumber s

/-- Models `String.prototype.toUpperCase` (character-wise). -/
def jsToUpperStr (s : String) : String := ⟨s.data.map Char.toUpper⟩

/-- Models `String.prototype.toLowerCase` (character-wise). -/
def jsToLowerStr (s : String) : String := ⟨s.data.map Char.toLower⟩

/-- A JS object used as a property bag: association list in insertion order,
without duplicate keys. -/
abbrev JProps := List (String × JsVal)

/-- Property access `props[key]`; an absent key reads as `undefined`. -/
def jsGet (props : JProps) (key : String) : JsVal :=
  (props.lookup key).getD .undefined

/-- Property write `props[key] = v`: updates an existing key in place
(keeping its position) or appends a new key at the end, as JS objects do. -/
def jsSet (props : JProps) (key : String) (v : JsVal) : JProps :=
  if props.any (fun kv => kv.1 = key) then
    props.map (fun kv => if kv.1 = key then (kv.1, v) else kv)
  else props ++ [(key, v)]

/-- Strict lexicographic comparison of char lists by code point; models the
string comparison used by the default `Array.prototype.sort` comparator. -/
def charListLt : List Char → List Char → Bool
  | [], [] => false
  | [], _ :: _ => true
  | _ :: _, [] => false
  | a :: as, b :: bs =>
    if a.toNat < b.toNat then true
    else if b.toNat < a.toNat then false
    else charListLt as bs

/-- Strict string comparison by code point. -/
def strLtB (a b : String) : Bool := charListLt a.data b.data

/-- The (non-strict) string order used when the code calls `.sort()`. -/
def strLe (a b : String) : Prop := strLtB b a = false

instance : DecidableRel strLe := fun a b =>
  inferInstanceAs (Decidable (strLtB b a = false))

theorem charListLt_irrefl : ∀ l, charListLt l l = false
  | [] => rfl
  | a :: as => by simp [charListLt, charListLt_irrefl as]

theorem charListLt_trans : ∀ {a b c : List Char},
    charListLt a b = true → charListLt b c = true → charListLt a c = true
  | [], _ :: _, _ :: _, _, _ => rfl
  | a :: as, b :: bs, c :: cs, h1, h2 => by
    simp only [charListLt] at h1 h2 ⊢
    split_ifs at h1 h2 ⊢
    all_goals try omega
    all_goals simp_all
    exact charListLt_trans h1 h2

theorem charListLt_connex : ∀ {a b : List Char},
    charListLt a b = false → charListLt b a = false → a = b
  | [], [], _, _ => rfl
  | a :: as, b :: bs, h1, h2 => by
    simp only [charListLt] at h1 h2
    split_ifs at h1 h2
    have htn : a.toNat = b.toNat := by omega
    have hab : a = b := Char.eq_of_val_eq (UInt32.toNat.inj htn)
    rw [hab, charListLt_connex h1 h2]

instance : IsTotal String strLe :=
  ⟨fun a b => by
    by_cases h1 : strLtB b a = false
    · exact Or.inl h1
    · by_cases h2 : strLtB a b = false
      · exact Or.inr h2
      · exfalso
        simp only [Bool.not_eq_false] at h1 h2
        have := charListLt_trans h1 h2
        rw [charListLt_irrefl] at this
        exact Bool.false_ne_true this⟩

instance : IsTrans String strLe :=
  ⟨fun a b c h1 h2 => by
    unfold strLe strLtB at *
    by_cases hca : charListLt c.data a.data = false
    · exact hca
    · exfalso
      simp only [Bool.not_eq_false] at hca
      by_cases hab : charListLt a.data b.data = true
      · by_cases hbc : charListLt b.data c.data = true
        · have := charListLt_trans (charListLt_trans hca hab) hbc
          rw [charListLt_irrefl] at this
          exact Bool.false_ne_true this
        · simp only [Bool.not_eq_true] at hbc
          have hcb : c.data = b.data := charListLt_connex h2 hbc
          rw [hcb] at hca
          have := charListLt_trans hca hab
          rw [charListLt_irrefl] at this
          exact Bool.false_ne_true this
      · simp only [Bool.not_eq_true] at hab
        have hba : b.data = a.data := charListLt_connex h1 hab
        rw [hba] at h2
        rw [h2] at hca
        exact Bool.false_ne_true hca⟩

/-- Sorting a string list with the default JS comparator
(`Array.prototype.sort` with no argument). -/
def sortStrings (l : List String) : List String := List.insertionSort strLe l

/-- A `[longitude, latitude]` coordinate pair. -/
abbrev Coord := JNum × JNum

/-- GeoJSON geometry (`Point | MultiPoint | LineString | MultiLineString |
Polygon | MultiPolygon | GeometryCollection`). -/
inductive Geometry where
  | point (c : Coord)
  | multiPoint (cs : List Coord)
  | lineString (cs : List Coord)
  | multiLineString (ls : List (List Coord))
  | polygon (rings : List (List Coord))
  | multiPolygon (polys : List (List (List Coord)))
  | geometryCollection (geoms : List Geometry)

/-- A GeoJSON feature: geometry (possibly `null`) and a property bag
(possibly `null`). -/
structure Feature where
  geometry : Option Geometry
  properties : Option JProps

/-- A GeoJSON `FeatureCollection`. -/
structure GeoCollection where
  features : List Feature

/-- Source `flattenCoords` (geojson.ts:14-57): recursively pushes every coordinate
pair of a geometry, in traversal order; a `null`/absent geometry contributes
nothing.  The imperative accumulator is rendered as list concatenation. -/
def flattenGeom : Geometry → List Coord
  | .point c => [c]
  | .multiPoint cs => cs
  | .lineString cs => cs
  | .multiLineString ls => ls.flatten
  | .polygon rings => rings.flatten
  | .multiPolygon polys => (polys.map List.flatten).flatten
  | .geometryCollection geoms => (geoms.attach.map (fun g => flattenGeom g.1)).flatten
decreasing_by
  have := List.sizeOf_lt_of_mem g.2
  simp only [Geometry.geometryCollection.sizeOf_spec]
  omega

/-- Source `flattenCoords` on an optional geometry (the `if (!geometry) return` guard). -/
def flattenCoords : Option Geometry → List Coord
  | none => []
  | some g => flattenGeom g

/-- One iteration of the `computeBounds` loop: a coordinate pair whose two
components are finite tightens the four running extrema
(`Math.min`/`Math.max`); any other pair is skipped. -/
def boundsStepJ (st : JNum × JNum × JNum × JNum) (p : Coord) : JNum × JNum × JNum × JNum :=
  match p with
  | (.fin lon, .fin lat) =>
    (jmin st.1 (.fin lon), jmin st.2.1 (.fin lat),
     jmax st.2.2.1 (.fin lon), jmax st.2.2.2 (.fin lat))
  | _ => st

/-- Source `computeBounds` (geojson.ts:59-82): min/max envelope
`[minLon, minLat, maxLon, maxLat]` over the finite coordinate pairs, `null`
when the flattened point list is empty or no pair is finite (the four
extrema start at `±Infinity` and are checked with `Number.isFinite` at the
end). -/
def computeBounds (features : List Feature) : Option (ℚ × ℚ × ℚ × ℚ) :=
  let points := (features.map (fun f => flattenCoords f.geometry)).flatten
  if points.isEmpty then none
  else
    match points.foldl boundsStepJ (.posInf, .posInf, .negInf, .negInf) with
    | (.fin a, .fin b, .fin c, .fin d) => some (a, b, c, d)
    | _ => none

/-- Models `String.prototype.startsWith` (full-string fragment). -/
def strStartsWith (s p : String) : Bool := p.data.isPrefixOf s.data

/-- Insert into an insertion-ordered set (models `Set.prototype.add`). -/
def insertUnique (l : List String) (s : String) : List String :=
  if s ∈ l then l else l ++ [s]

/-- One step of the `sa2ByState` accumulation: ensure the state key exists
(appending new keys at the end, as JS objects do) and add the SA2 name, if
any, to its set. -/
def upsertSa2 (m : List (String × List String)) (state : String) (sa2 : Option String) :
    List (String × List String) :=
  if m.any (fun kv => kv.1 = state) then
    m.map (fun kv =>
      if kv.1 = state then
        (kv.1, match sa2 with
          | some s => insertUnique kv.2 s
          | none => kv.2)
      else kv)
  else
    m ++ [(state, match sa2 with
      | some s => [s]
      | none => [])]

/-- Accumulator of `buildMetadata`'s first pass over the features. -/
structure MetaAcc where
  propertyNames : List String
  sa2ByState : List (String × List String)
  iradValues : List JNum

/-- One iteration of `buildMetadata`'s first loop (geojson.ts:90-103):
collect property keys, group SA2 names by state (non-string key values are
coerced to strings by the JS object indexing), and push the `Number(...)`
coercion of `IRAD_decile` whenever it is not NaN. -/
def metaStep (acc : MetaAcc) (f : Feature) : MetaAcc :=
  let props := f.properties.getD []
  let pn := props.foldl (fun l kv => insertUnique l kv.1) acc.propertyNames
  let stateV := jsGet props "STE_NAME21"
  let sa2V := jsGet props "SA2_NAME21"
  let m :=
    if stateV.truthy then
      upsertSa2 acc.sa2ByState (jsToString stateV)
        (if sa2V.truthy then some (jsToString sa2V) else none)
    else acc.sa2ByState
  let decile := jsToNumber (jsGet props "IRAD_decile")
  let iv := if decile.isNaN then acc.iradValues else acc.iradValues ++ [decile]
  ⟨pn, m, iv⟩

/-- Round to 6 decimal digits and re-read, models
`Number(x.toFixed(6))` (ties away from the smaller candidate). -/
def round6 (q : ℚ) : ℚ := ((⌊q * 1000000 + 1 / 2⌋ : ℤ) : ℚ) / 1000000

/-- Source `buildMetadata`'s second pass (geojson.ts:105-118): for each state of the
grouping, in key order, filter the collection by strict equality of the
`STE_NAME21` property with the state key and compute a rounded bbox center. -/
def computeCenters (features : List Feature) (m : List (String × List String)) :
    List (String × (ℚ × ℚ)) :=
  m.foldl (fun acc p =>
    let subset := features.filter
      (fun f => jsGet (f.properties.getD []) "STE_NAME21" = .str p.1)
    match computeBounds subset with
    | some (minLon, minLat, maxLon, maxLat) =>
      acc ++ [(p.1, (round6 ((minLat + maxLat) / 2), round6 ((minLon + maxLon) / 2)))]
    | none => acc) []

/-- The derived metadata record (`MapMetadata` in types.ts). -/
structure MapMetadata where
  states : List String
  sa2ByState : List (String × List String)
  totalBounds : Option (ℚ × ℚ × ℚ × ℚ)
  stateCenters : List (String × (ℚ × ℚ))
  propertyNames : List String
  count : ℕ
  iradRange : Option (JNum × JNum)
  seifaColumns : List String

/-- Source `buildMetadata` (geojson.ts:84-137). -/
def buildMetadata (data : GeoCollection) : MapMetadata :=
  let acc := data.features.foldl metaStep ⟨[], [], []⟩
  let seifaColumns := acc.propertyNames.filter (fun name =>
    (["IRSD_", "IRAD_", "IER_", "IEO_"].any fun p => strStartsWith name p) || name = "URP")
  { states := sortStrings (acc.sa2ByState.map Prod.fst)
    sa2ByState := acc.sa2ByState.map (fun p => (p.1, sortStrings p.2))
    totalBounds := computeBounds data.features
    stateCenters := computeCenters data.features acc.sa2ByState
    propertyNames := acc.propertyNames
    count := data.features.length
    iradRange :=
      if acc.iradValues.isEmpty then none
      else some (acc.iradValues.foldl jmin .posInf, acc.iradValues.foldl jmax .negInf)
    seifaColumns := seifaColumns }

/-- The `toInt` helper inside `computeStage` (schools.ts:8-14): for a
normalized value starting with `Y` of length ≥ 3, `parseInt` of its second
and third characters; `null` otherwise or when parsing gives NaN. -/
def stageToInt (value : String) : Option ℤ :=
  if strStartsWith value "Y" && decide (value.data.length ≥ 3) then
    jsParseInt ⟨(value.data.drop 1).take 2⟩
  else none

/-- The body of `computeStage` (schools.ts:3-39) after both bounds have been
normalized (upper-cased, `null`/`undefined` replaced by `""`). -/
def computeStageCore (low high : String) : String :=
  let lowNum := stageToInt low
  let highNum := stageToInt high
  let hasPrimary0 := ["KIN", "PP", "P"].contains low || ["KIN", "PP", "P"].contains high
  let hasPrimary1 := hasPrimary0 || lowNum.any (fun n => decide (n ≤ 6))
  let hasSecondary1 := lowNum.any (fun n => decide (n ≥ 7))
  let hasPrimary := hasPrimary1 || highNum.any (fun n => decide (n ≤ 6))
  let hasSecondary := hasSecondary1 || highNum.any (fun n => decide (n ≥ 7))
  if hasPrimary && hasSecondary then "combined"
  else if hasPrimary then "primary"
  else if hasSecondary then "secondary"
  else "other"

/-- Source `computeStage` (schools.ts:3-39) at its declared signature
(`lowYear?: string | null, highYear?: string | null`). -/
def computeStage (lowYear highYear : Option String) : String :=
  computeStageCore (jsToUpperStr (lowYear.getD "")) (jsToUpperStr (highYear.getD ""))

/-- The `normalize` helper, `(value || "").toUpperCase()`, applied to an
arbitrary runtime value: a TypeError is raised when the value is truthy but
not a string. -/
def jsUpperOrThrow (v : JsVal) : Except String String :=
  if v.truthy then
    match v with
    | .str s => .ok (jsToUpperStr s)
    | _ => .error "TypeError: value.toUpperCase is not a function"
  else .ok ""

/-- Source `computeStage` as invoked at runtime on arbitrary property values. -/
def computeStageJs (lowYear highYear : JsVal) : Except String String := do
  let low ← jsUpperOrThrow lowYear
  let high ← jsUpperOrThrow highYear
  .ok (computeStageCore low high)

/-- The per-feature body of `ensureSchoolStages` (schools.ts:43-52): a
missing property bag is replaced by `{}`; a feature whose `stage` property is
falsy (absent, `null`, `""`, `0`, `false`, NaN) gets a computed stage. -/
def stageFill (f : Feature) : Except String Feature :=
  let props := f.properties.getD []
  if (jsGet props "stage").truthy then .ok { f with properties := some props }
  else do
    let stage ← computeStageJs (jsGet props "lowyear") (jsGet props "highyear")
    .ok { f with properties := some (jsSet props "stage" (.str stage)) }

/-- The `features?.map(...)` call of `ensureSchoolStages`, in the
`Except`-monad because the body can raise. -/
def mapFeatures : List Feature → Except String (List Feature)
  | [] => .ok []
  | f :: t => do
    let f' ← stageFill f
    let t' ← mapFeatures t
    .ok (f' :: t')

/-- Source `ensureSchoolStages` (schools.ts:41-54). -/
def ensureSchoolStages : Option GeoCollection → Except String (Option GeoCollection)
  | none => .ok none
  | some c => do
    let fs ← mapFeatures c.features
    .ok (some { features := fs })

/-- Source `SchoolsSummary` (types.ts); the `Record<string, number>` histograms are
modelled as insertion-ordered association lists. -/
structure SchoolsSummary where
  count : ℕ
  sectorCounts : List (String × ℕ)
  remoteCounts : List (String × ℕ)
  stageCounts : List (String × ℕ)
deriving DecidableEq, Repr

/-- Increment a histogram key: `m[k] = (m[k] || 0) + 1` (new keys are
appended, existing keys keep their position). -/
def bump (m : List (String × ℕ)) (k : String) : List (String × ℕ) :=
  if m.any (fun kv => kv.1 = k) then
    m.map (fun kv => if kv.1 = k then (kv.1, kv.2 + 1) else kv)
  else m ++ [(k, 1)]

/-- Models `String(x || "").trim()`, the sector / remote-area histogram key. -/
def blankableKey (v : JsVal) : String :=
  jsTrim (jsToString (if v.truthy then v else .str ""))

/-- Models `(props.stage || "other").toLowerCase()`: a TypeError is raised when the
stage value is truthy but not a string. -/
def stageKeyOrThrow (v : JsVal) : Except String String :=
  if v.truthy then
    match v with
    | .str s => .ok (jsToLowerStr s)
    | _ => .error "TypeError: stage.toLowerCase is not a function"
  else .ok "other"

/-- The three histograms accumulated by `summarizeSchools`. -/
structure SchoolCounts where
  sectorCounts : List (String × ℕ)
  remoteCounts : List (String × ℕ)
  stageCounts : List (String × ℕ)

/-- One iteration of the `summarizeSchools` loop (schools.ts:66-85): blank
sector / remote keys are skipped; a stage key not already present in the
histogram falls into the `other` bucket. -/
def schoolStep (acc : SchoolCounts) (f : Feature) : Except String SchoolCounts := do
  let props := f.properties.getD []
  let sector := blankableKey (jsGet props "sector")
  let sec := if sector ≠ "" then bump acc.sectorCounts sector else acc.sectorCounts
  let remote := blankableKey (jsGet props "remotearea")
  let rem := if remote ≠ "" then bump acc.remoteCounts remote else acc.remoteCounts
  let stage ← stageKeyOrThrow (jsGet props "stage")
  let stg :=
    if acc.stageCounts.any (fun kv => kv.1 = stage) then bump acc.stageCounts stage
    else bump acc.stageCounts "other"
  .ok ⟨sec, rem, stg⟩

/-- The `for`-loop of `summarizeSchools`. -/
def schoolsFold (acc : SchoolCounts) : List Feature → Except String SchoolCounts
  | [] => .ok acc
  | f :: t => do schoolsFold (← schoolStep acc f) t

/-- The initial `stageCounts` histogram with its four fixed keys. -/
def initStageCounts : List (String × ℕ) :=
  [("primary", 0), ("secondary", 0), ("combined", 0), ("other", 0)]

/-- Source `summarizeSchools` (schools.ts:56-91). -/
def summarizeSchools : Option GeoCollection → Except String (Option SchoolsSummary)
  | none => .ok none
  | some c =>
    if c.features.isEmpty then .ok none
    else do
      let counts ← schoolsFold ⟨[], [], initStageCounts⟩ c.features
      .ok (some ⟨c.features.length, counts.sectorCounts, counts.remoteCounts,
        counts.stageCounts⟩)

/-- Source `parsePercentile` (schools.ts:93-105), the function the specification
calls `parseNumericPercentage`: a finite number is returned as is; a string
has every `%` removed and is trimmed, then parsed (`null` when empty or not
parsing to a finite number); everything else is `null`.  Total by
construction — the original never throws either. -/
def parsePercentile (value : JsVal) : Option ℚ :=
  match value with
  | .null => none
  | .undefined => none
  | .num (.fin q) => some q
  | .str s =>
    let cleaned := jsTrim ⟨s.data.filter (fun c => !(c = '%'))⟩
    if cleaned = "" then none
    else
      match jsStrToNumber cleaned with
      | .fin q => some q
      | _ => none
  | _ => none

/-- Source `TransitLayers` (types.ts): the four optional keys of the grouped transit
mapping; an absent key is `none`. -/
structure TransitLayers where
  train : Option GeoCollection := none
  bus : Option GeoCollection := none
  other : Option GeoCollection := none
  all : Option GeoCollection := none

/-- First value that is neither `undefined` nor `null` among the given keys
(the `props[key] != null` loop of `routeType`). -/
def firstNonNull (props : JProps) : List String → Option JsVal
  | [] => none
  | k :: t =>
    match jsGet props k with
    | .undefined => firstNonNull props t
    | .null => firstNonNull props t
    | v => some v

/-- The `routeType` helper of `groupTransitLayers` (loaders.ts:36-45):
`String(value).trim().toLowerCase()` of the first non-null value among the
three key spellings, `""` when none is present. -/
def routeType (f : Feature) : String :=
  let props := f.properties.getD []
  match firstNonNull props ["ROUTETYPE", "RouteType", "route_type"] with
  | some v => jsToLowerStr (jsTrim (jsToString v))
  | none => ""

/-- Source `groupTransitLayers` (loaders.ts:34-65). -/
def groupTransitLayers (data : Option GeoCollection) : TransitLayers :=
  match data with
  | none => {}
  | some d =>
    if d.features.isEmpty then {}
    else
      let train : GeoCollection := ⟨d.features.filter (fun f => routeType f == "train")⟩
      let bus : GeoCollection :=
        ⟨d.features.filter (fun f => ["standard", "cat", "school"].contains (routeType f))⟩
      let other : GeoCollection :=
        ⟨d.features.filter
          (fun f => !(["train", "standard", "cat", "school"].contains (routeType f)))⟩
      let l0 : TransitLayers := {}
      let l1 := if train.features.length ≠ 0 then { l0 with train := some train } else l0
      let l2 := if bus.features.length ≠ 0 then { l1 with bus := some bus } else l1
      let l3 := if other.features.length ≠ 0 then { l2 with other := some other } else l2
      if l3.train.isNone && l3.bus.isNone && l3.other.isNone then { l3 with all := some d }
      else l3

/-- Source `CatchmentsSummary` (types.ts). -/
structure CatchmentsSummary where
  count : ℕ
  levels : List (String × ℕ)

/-- The record returned by `summarizeCatchments`. -/
structure CatchmentsResult where
  layers : List (String × GeoCollection)
  summary : Option CatchmentsSummary
  warning : Option String := none

/-- Source `summarizeCatchments` (loaders.ts:67-95): per-level exact-match filters;
a level whose filter is empty is not added to the layer mapping. -/
def summarizeCatchments (data : Option GeoCollection) : CatchmentsResult :=
  match data with
  | none => ⟨[], none, some "Catchment GeoJSON not found or empty."⟩
  | some d =>
    if d.features.isEmpty then ⟨[], none, some "Catchment GeoJSON not found or empty."⟩
    else
      let collect := fun (layers : List (String × GeoCollection)) (level : String) =>
        let fs := d.features.filter
          (fun f => jsGet (f.properties.getD []) "catchment_level" == .str level)
        if fs.length ≠ 0 then layers ++ [(level, ⟨fs⟩)] else layers
      let layers := collect (collect (collect [] "primary") "high") "other"
      ⟨layers,
       some ⟨d.features.length, layers.map (fun p => (p.1, p.2.features.length))⟩,
       none⟩

/-- Source `ArcgisManifestEntry` (types.ts). -/
structure ArcgisManifestEntry where
  name : String
  file : String

/-- Source `ArcgisManifest` (types.ts). -/
structure ArcgisManifest where
  layers : List ArcgisManifestEntry

/-- Source `loadArcgisManifest` (loaders.ts:97-103), given the settled fetch result:
a failed fetch is replaced by an empty manifest, with no warning recorded. -/
def loadArcgisManifest (fetched : Option ArcgisManifest) : ArcgisManifest :=
  fetched.getD ⟨[]⟩

/-- Models `feature.properties && feature.properties.ranking_rank != null`. -/
def hasRankingAttr (f : Feature) : Bool :=
  match f.properties with
  | some ps =>
    match jsGet ps "ranking_rank" with
    | .undefined => false
    | .null => false
    | _ => true
  | none => false

/-- Source `MapData` (types.ts), as actually constructed by `loadMapData` (the
declared `stops` field is never produced by the loader and is omitted). -/
structure MapData where
  sa1 : GeoCollection
  metadata : MapMetadata
  transit : TransitLayers
  schools : Option GeoCollection
  schoolsSummary : Option SchoolsSummary
  catchments : List (String × GeoCollection)
  catchmentsSummary : Option CatchmentsSummary
  catchmentsWarning : Option String
  transitWarning : Option String
  schoolsWarning : Option String
  rankingWarning : Option String
  seifaWarning : Option String
  arcgisManifest : ArcgisManifest

/-- Source `loadMapData` (loaders.ts:120-166), modelled as a function of the five
settled fetch results: `fetchJson` (loaders.ts:20-32) yields `null` — here
`none` — on a transport failure, a non-OK status or an unparseable body, so
each parameter is the outcome of one of the five concurrent fetches.  A
thrown error (the `throw new Error(...)` for a missing SA1 dataset, or a
TypeError escaping the school-stage pipeline) rejects the promise, modelled
by `Except.error`. -/
def loadMapData (sa1 transitSource schools catchmentsSource : Option GeoCollection)
    (manifestFetch : Option ArcgisManifest) : Except String MapData := do
  let arcgisManifest := loadArcgisManifest manifestFetch
  match sa1 with
  | none => .error "SA1 dataset is required. Ensure assets are generated under /assets."
  | some sa1c => do
    let metadata := buildMetadata sa1c
    let transit := groupTransitLayers transitSource
    let stagedSchools ← ensureSchoolStages schools
    let schoolsSummary ← summarizeSchools stagedSchools
    let catchRes := summarizeCatchments catchmentsSource
    let rankingWarning :=
      match stagedSchools with
      | some sc =>
        if sc.features.length ≠ 0 && !(sc.features.any hasRankingAttr) then
          some "Ranking attributes missing from processed schools GeoJSON. Re-run scripts/prep_geojson.py --schools with the ranking XML."
        else none
      | none => none
    .ok {
      sa1 := sa1c
      metadata := metadata
      transit := transit
      schools := stagedSchools
      schoolsSummary := schoolsSummary
      catchments := catchRes.layers
      catchmentsSummary := catchRes.summary
      catchmentsWarning := catchRes.warning
      transitWarning :=
        if transitSource.isSome then none else some "Transit GeoJSON missing from assets."
      schoolsWarning :=
        if stagedSchools.isSome then none else some "Schools GeoJSON missing from assets."
      rankingWarning := rankingWarning
      seifaWarning :=
        if metadata.seifaColumns.length ≠ 0 then none
        else some "SEIFA fields missing from SA1 GeoJSON."
      arcgisManifest := arcgisManifest }

/-! ## Specification-side definitions

The following definitions are written from the wording of the claims (not
from the code); the theorems below compare them with the embedded source
functions. -/

/-- Spec side (C7): a coordinate pair both of whose components are finite. -/
def finCoord : Coord → Option (ℚ × ℚ)
  | (.fin a, .fin b) => some (a, b)
  | _ => none

/-- Spec side (C7): the finite coordinate pairs of a feature list, in
traversal order. -/
def finitePoints (features : List Feature) : List (ℚ × ℚ) :=
  ((features.map (fun f => flattenCoords f.geometry)).flatten).filterMap finCoord

/-- Spec side (C7): tighten a rational envelope by one point. -/
def boundsStep (st : ℚ × ℚ × ℚ × ℚ) (p : ℚ × ℚ) : ℚ × ℚ × ℚ × ℚ :=
  (min st.1 p.1, min st.2.1 p.2, max st.2.2.1 p.1, max st.2.2.2 p.2)

/-- Spec side (C7): the min/max envelope of a point list, `none` when it is
empty. -/
def envelope : List (ℚ × ℚ) → Option (ℚ × ℚ × ℚ × ℚ)
  | [] => none
  | p :: t => some (t.foldl boundsStep (p.1, p.2, p.1, p.2))

/-- Spec side (C2, claim as stated): the finite numeric value of a feature's
`IRAD_decile` property, where a missing or null property contributes nothing
(is not coerced) and a non-numeric or non-finite value contributes nothing. -/
def iradClaimVal (f : Feature) : Option ℚ :=
  match jsGet (f.properties.getD []) "IRAD_decile" with
  | .undefined => none
  | .null => none
  | v =>
    match jsToNumber v with
    | .fin q => some q
    | _ => none

/-- Spec side (C2, claim as stated): `[min, max]` over the finite numeric
values of `IRAD_decile`, `none` when no feature carries one. -/
def iradRangeClaimC2 (c : GeoCollection) : Option (ℚ × ℚ) :=
  match c.features.filterMap iradClaimVal with
  | [] => none
  | v :: t => some (t.foldl min v, t.foldl max v)

/-- Spec side (C2, amended): the `Number(...)` coercion of each feature's
`IRAD_decile` (so `null` and blank strings coerce to 0, booleans to 0/1, and
infinite coercions are kept), dropping only the NaN coercions; `[min, max]`
over these, `none` when every coercion is NaN. -/
def iradRangeSpec (c : GeoCollection) : Option (JNum × JNum) :=
  match c.features.filterMap (fun f =>
    let d := jsToNumber (jsGet (f.properties.getD []) "IRAD_decile")
    if d.isNaN then none else some d) with
  | [] => none
  | v :: t => some (t.foldl jmin v, t.foldl jmax v)

/-- Spec side (C4): a bound counts as primary when it is a
kindergarten/pre-primary code or a Y-coded year ≤ 6 (after the code's
normalization). -/
def specBoundPrimary (b : Option String) : Bool :=
  ["KIN", "PP", "P"].contains (jsToUpperStr (b.getD "")) ||
    (stageToInt (jsToUpperStr (b.getD ""))).any (fun n => decide (n ≤ 6))

/-- Spec side (C4): a bound counts as secondary when it is a Y-coded year ≥ 7. -/
def specBoundSecondary (b : Option String) : Bool :=
  (stageToInt (jsToUpperStr (b.getD ""))).any (fun n => decide (n ≥ 7))

/-- Spec side (C4): the claimed decision rule, examining both bounds
independently: `combined` when both a primary and a secondary bound exist,
else `primary` / `secondary` when one does, else `other`. -/
def specStage (low high : Option String) : String :=
  let p := specBoundPrimary low || specBoundPrimary high
  let s := specBoundSecondary low || specBoundSecondary high
  if p && s then "combined"
  else if p then "primary"
  else if s then "secondary"
  else "other"

/-- Spec side (C9, claim as stated): strip surrounding whitespace and one
optional trailing percent sign (and whitespace again). -/
def stripOptTrailingPercent (s : String) : String :=
  let t := jsTrim s
  match t.data.reverse with
  | '%' :: r => jsTrim ⟨r.reverse⟩
  | _ => t

/-- Spec side (C9, claim as stated): the number itself for finite numeric
input; the parsed number for a string that is numeric after stripping an
optional (trailing) percent sign and surrounding whitespace; `null` for
everything else (in particular the empty string). -/
def specC9orig : JsVal → Option ℚ
  | .num (.fin q) => some q
  | .str s =>
    let core := stripOptTrailingPercent s
    if core = "" then none
    else
      match jsStrToNumber core with
      | .fin q => some q
      | _ => none
  | _ => none

/-- Spec side (C9, amended): the number itself for finite numeric input; for
a string, remove every percent sign (wherever it occurs), trim surrounding
whitespace, and return the parsed value when the remainder is nonempty and
parses to a finite number; `null` for everything else. -/
def specC9amended : JsVal → Option ℚ
  | .num (.fin q) => some q
  | .str s =>
    let stripped := jsTrim ⟨s.data.filter (fun c => !(c = '%'))⟩
    match jsStrToNumber stripped with
    | .fin q => if stripped = "" then none else some q
    | _ => none
  | _ => none

/-- Spec side (C1): a feature carrying no non-null value under any of the
three route-type key spellings. -/
def noRouteKey (f : Feature) : Bool :=
  (firstNonNull (f.properties.getD []) ["ROUTETYPE", "RouteType", "route_type"]).isNone

/-- Spec side (C8): the features of a feed whose `catchment_level` property
is exactly (strict equality) the given level string. -/
def catchMatches (d : GeoCollection) (level : String) : List Feature :=
  d.features.filter (fun f => jsGet (f.properties.getD []) "catchment_level" == .str level)

/-- Spec side (C3): the relation between an input feature and the
corresponding output feature of `ensureSchoolStages` — a feature with a
truthy `stage` is returned unchanged; otherwise the output keeps the
geometry, carries the successfully computed stage, and agrees with the input
on every other property. -/
def stageRel (f f' : Feature) : Prop :=
  let props := f.properties.getD []
  if (jsGet props "stage").truthy then f' = f
  else
    f'.geometry = f.geometry ∧
    ∃ st, computeStageJs (jsGet props "lowyear") (jsGet props "highyear") = .ok st ∧
      jsGet (f'.properties.getD []) "stage" = .str st ∧
      ∀ k, ¬ k = "stage" → jsGet (f'.properties.getD []) k = jsGet props k

/-! ## Concrete instances used by counterexamples and witnesses -/

/-- A transit feature with an empty property bag (no route-type key). -/
def transitBareFeature : Feature := ⟨none, some []⟩

/-- A transit feed whose single feature carries no route-type key. -/
def transitBareFeed : GeoCollection := ⟨[transitBareFeature]⟩

/-- An SA1 feature whose `IRAD_decile` is JSON `null`. -/
def iradNullFeature : Feature := ⟨none, some [("IRAD_decile", .null)]⟩

/-- An SA1 collection whose single feature has `IRAD_decile: null`. -/
def iradNullColl : GeoCollection := ⟨[iradNullFeature]⟩

/-- A school feature that carries `stage: ""` together with year codes. -/
def emptyStageFeature : Feature :=
  ⟨none, some [("stage", .str ""), ("lowyear", .str "Y07"), ("highyear", .str "Y12")]⟩

/-- The collection holding just `emptyStageFeature`. -/
def emptyStageColl : GeoCollection := ⟨[emptyStageFeature]⟩

/-- What `ensureSchoolStages` actually produces for `emptyStageFeature`. -/
def emptyStageFeatureOut : Feature :=
  ⟨none, some [("stage", .str "secondary"), ("lowyear", .str "Y07"), ("highyear", .str "Y12")]⟩

/-- The collection holding just `emptyStageFeatureOut`. -/
def emptyStageCollOut : GeoCollection := ⟨[emptyStageFeatureOut]⟩

/-- A school feature with a truthy `stage` (left untouched by the back-fill). -/
def stagedFeature : Feature :=
  ⟨none, some [("stage", .str "primary"), ("sector", .str "Gov")]⟩

/-- A school feature with no `stage` and year codes `PP`–`Y06`. -/
def unstagedFeature : Feature :=
  ⟨none, some [("lowyear", .str "PP"), ("highyear", .str "Y06")]⟩

/-- A two-feature school collection exercising both back-fill branches. -/
def schoolsWitColl : GeoCollection := ⟨[stagedFeature, unstagedFeature]⟩

/-- The feature `unstagedFeature` after the stage back-fill. -/
def unstagedFeatureOut : Feature :=
  ⟨none, some [("lowyear", .str "PP"), ("highyear", .str "Y06"), ("stage", .str "primary")]⟩

/-- The collection `schoolsWitColl` after the stage back-fill. -/
def schoolsWitCollOut : GeoCollection := ⟨[stagedFeature, unstagedFeatureOut]⟩

/-- A school feature whose `stage` property is the number 5 (a truthy
non-string, on which the summary's `.toLowerCase()` call throws). -/
def numericStageFeature : Feature := ⟨none, some [("stage", .num (.fin 5))]⟩

/-- The collection holding just `numericStageFeature`. -/
def numericStageColl : GeoCollection := ⟨[numericStageFeature]⟩

/-- An empty (but present and parseable) SA1 collection. -/
def emptySa1 : GeoCollection := ⟨[]⟩

/-- A polygon collection with two states in reverse alphabetical order. -/
def metaWitColl : GeoCollection :=
  ⟨[⟨none, some [("STE_NAME21", .str "B"), ("SA2_NAME21", .str "x")]⟩,
    ⟨none, some [("STE_NAME21", .str "A"), ("SA2_NAME21", .str "y")]⟩]⟩

/-- A catchment feature with level `primary`. -/
def primaryCatchFeature : Feature := ⟨none, some [("catchment_level", .str "primary")]⟩

/-- A catchment feed whose only feature has level `primary`. -/
def primaryCatchFeed : GeoCollection := ⟨[primaryCatchFeature]⟩

/-- A school feature with a sector and no stage. -/
def sectorFeature : Feature := ⟨none, some [("sector", .str "Gov")]⟩

/-- The collection holding just `sectorFeature`. -/
def sectorColl : GeoCollection := ⟨[sectorFeature]⟩

/-- The summary `summarizeSchools` produces for `sectorColl`. -/
def sectorSummary : SchoolsSummary :=
  ⟨1, [("Gov", 1)], [],
   [("primary", 0), ("secondary", 0), ("combined", 0), ("other", 1)]⟩

/-! ## Helper lemmas -/

theorem boundsFold_fin (pts : List Coord) :
    ∀ a b c d : ℚ,
      pts.foldl boundsStepJ (.fin a, .fin b, .fin c, .fin d) =
        (match (pts.filterMap finCoord).foldl boundsStep (a, b, c, d) with
          | (a', b', c', d') => (.fin a', .fin b', .fin c', .fin d')) := by
  induction pts with
  | nil => intro a b c d; rfl
  | cons p t ih =>
    intro a b c d
    match p with
    | (.fin x, .fin y) =>
      simpa [boundsStepJ, boundsStep, finCoord, jmin, jmax] using
        ih (min a x) (min b y) (max c x) (max d y)
    | (.fin x, .posInf) => simpa [boundsStepJ, finCoord] using ih a b c d
    | (.fin x, .negInf) => simpa [boundsStepJ, finCoord] using ih a b c d
    | (.fin x, .nan) => simpa [boundsStepJ, finCoord] using ih a b c d
    | (.posInf, y) => simpa [boundsStepJ, finCoord] using ih a b c d
    | (.negInf, y) => simpa [boundsStepJ, finCoord] using ih a b c d
    | (.nan, y) => simpa [boundsStepJ, finCoord] using ih a b c d

theorem boundsFold_init (pts : List Coord) :
    pts.foldl boundsStepJ (.posInf, .posInf, .negInf, .negInf) =
      (match pts.filterMap finCoord with
        | [] => (.posInf, .posInf, .negInf, .negInf)
        | q :: t =>
          match t.foldl boundsStep (q.1, q.2, q.1, q.2) with
          | (a', b', c', d') => (.fin a', .fin b', .fin c', .fin d')) := by
  induction pts with
  | nil => rfl
  | cons p t ih =>
    match p with
    | (.fin x, .fin y) => simp [boundsStepJ, finCoord, jmin, jmax, boundsFold_fin t]
    | (.fin x, .posInf) => simpa [boundsStepJ, finCoord] using ih
    | (.fin x, .negInf) => simpa [boundsStepJ, finCoord] using ih
    | (.fin x, .nan) => simpa [boundsStepJ, finCoord] using ih
    | (.posInf, y) => simpa [boundsStepJ, finCoord] using ih
    | (.negInf, y) => simpa [boundsStepJ, finCoord] using ih
    | (.nan, y) => simpa [boundsStepJ, finCoord] using ih

theorem bounds_core (pts : List Coord) :
    (if pts.isEmpty then none
     else
       match pts.foldl boundsStepJ (.posInf, .posInf, .negInf, .negInf) with
       | (.fin a, .fin b, .fin c, .fin d) => some (a, b, c, d)
       | _ => none) =
      envelope (pts.filterMap finCoord) := by
  by_cases h : pts.isEmpty = true
  · rw [List.isEmpty_iff] at h
    subst h
    rfl
  · simp only [h, if_false, Bool.false_eq_true]
    rw [boundsFold_init]
    cases hfm : pts.filterMap finCoord with
    | nil => rfl
    | cons q t =>
      obtain ⟨a', b', c', d'⟩ := t.foldl boundsStep (q.1, q.2, q.1, q.2)
      rfl

theorem jmin_posInf (v : JNum) : jmin .posInf v = v := by
  cases v <;> rfl

theorem jmax_negInf (v : JNum) : jmax .negInf v = v := by
  cases v <;> rfl

/-- Claim **C7**: `computeBounds` never raises (it is total by construction) and
returns `null` exactly when the collection flattens to no finite coordinate
pair — in particular on the empty collection and on collections with only
non-finite pairs, since `envelope [] = none`; when at least one finite pair
exists it returns the min/max envelope `[minLon, minLat, maxLon, maxLat]`
over the finite pairs, and a single point yields the degenerate bbox with
min equal to max on both axes. -/
theorem C7_computeBounds_envelope :
    (∀ features : List Feature, computeBounds features = envelope (finitePoints features)) ∧
    (∀ q r : ℚ,
      computeBounds [⟨some (.point (.fin q, .fin r)), none⟩] = some (q, r, q, r)) := by
  have main : ∀ features : List Feature,
      computeBounds features = envelope (finitePoints features) := by
    intro features
    unfold computeBounds finitePoints
    exact bounds_core _
  refine ⟨main, fun q r => ?_⟩
  rw [main]
  simp [finitePoints, flattenCoords, flattenGeom, finCoord, envelope]

theorem metaFold_irad (fs : List Feature) :
    ∀ acc : MetaAcc,
      (fs.foldl metaStep acc).iradValues =
        acc.iradValues ++ fs.filterMap (fun f =>
          let d := jsToNumber (jsGet (f.properties.getD []) "IRAD_decile")
          if d.isNaN then none else some d) := by
  induction fs with
  | nil => intro acc; simp
  | cons f t ih =>
    intro acc
    rw [List.foldl_cons, ih]
    by_cases h : (jsToNumber (jsGet (f.properties.getD []) "IRAD_decile")).isNaN = true
    · simp [metaStep, h]
    · simp [metaStep, h]

/-- Claim **C2 (amended)**: `iradRange` is `[min, max]` over the `Number(...)`
coercions of the `IRAD_decile` property that are not NaN — so a missing key
or a non-numeric string contributes nothing, but a JSON `null` (and a blank
string) is coerced to 0 and does contribute, booleans contribute 0/1, and
infinite coercions are kept — and `null` exactly when every feature's
coercion is NaN. -/
theorem C2_iradRange_amended (c : GeoCollection) :
    (buildMetadata c).iradRange = iradRangeSpec c := by
  simp only [buildMetadata, iradRangeSpec]
  rw [metaFold_irad]
  simp only [List.nil_append]
  cases hfm : c.features.filterMap (fun f =>
      let d := jsToNumber (jsGet (f.properties.getD []) "IRAD_decile")
      if d.isNaN then none else some d) with
  | nil => rfl
  | cons v t => simp [List.foldl_cons, jmin_posInf, jmax_negInf]

/-- Claim **C2 (counterexample)**: on a collection whose single feature has
`IRAD_decile: null`, the code coerces `null` to 0 and produces the range
`[0, 0]`, while the claim as stated (null contributes nothing, range `null`
when no feature carries a finite value) demands `null`. -/
theorem C2_iradRange_counterexample :
    (buildMetadata iradNullColl).iradRange = some (.fin 0, .fin 0) ∧
    iradRangeClaimC2 iradNullColl = none := by
  exact ⟨rfl, rfl⟩

/-- Claim **C9 (amended)**: `parseNumericPercentage` (source name `parsePercentile`)
never throws (it is total by construction); it returns the number itself for
finite numeric input and `null` for non-finite numbers, `null`/`undefined`
and booleans; for a string it removes EVERY percent sign (wherever it
occurs, not just one trailing sign), trims surrounding whitespace, and
returns the parsed number when the remainder is nonempty and numeric, else
`null`; in particular `"87.5%" ↦ 87.5`, `"" ↦ null`, `42 ↦ 42`. -/
theorem C9_parsePercentile_amended :
    (∀ v : JsVal, parsePercentile v = specC9amended v) ∧
    parsePercentile (.str "87.5%") = some (175 / 2) ∧
    parsePercentile (.str "") = none ∧
    parsePercentile (.num (.fin 42)) = some 42 := by
  have main : ∀ v : JsVal, parsePercentile v = specC9amended v := by
    intro v
    match v with
    | .undefined => rfl
    | .null => rfl
    | .bool b => rfl
    | .num .nan => rfl
    | .num .posInf => rfl
    | .num .negInf => rfl
    | .num (.fin q) => rfl
    | .str s =>
      simp only [parsePercentile, specC9amended]
      by_cases h : jsTrim ⟨s.data.filter (fun c => !(c = '%'))⟩ = ""
      · rw [if_pos h, h]
        rfl
      · rw [if_neg h]
        cases hkind : jsStrToNumber (jsTrim ⟨s.data.filter (fun c => !(c = '%'))⟩) <;>
          simp [h]
  have e875 : parsePercentile (.str "87.5%") =
      some (1 * ((digitsVal ['8', '7'] : ℚ) + (digitsVal ['5'] : ℚ) / 10 ^ (['5'].length))) :=
    rfl
  have d87 : (digitsVal ['8', '7'] : ℕ) = 87 := rfl
  have d5 : (digitsVal ['5'] : ℕ) = 5 := rfl
  refine ⟨main, ?_, rfl, rfl⟩
  rw [e875, d87, d5]
  norm_num

/-- Claim **C9 (counterexample)**: on the string `"5%5"` the code removes both
percent-adjacent characters' separator — i.e. every `%` — and parses `"55"`,
returning `55`; the claim as stated (strip one optional percent sign and
surrounding whitespace, `null` for everything else) demands `null`, since
`"5%5"` is not numeric after stripping a trailing percent sign. -/
theorem C9_parsePercentile_counterexample :
    parsePercentile (.str "5%5") = some 55 ∧ specC9orig (.str "5%5") = none := by
  constructor
  · have h : parsePercentile (.str "5%5") = some (1 * (digitsVal ['5', '5'] : ℚ)) := rfl
    have d : (digitsVal ['5', '5'] : ℕ) = 55 := rfl
    rw [h, d]
    norm_num
  · rfl

/-- Claim **C4**: `computeStage` classifies by examining both bounds independently
— `primary` when some bound is a kindergarten/pre-primary code (`KIN`, `PP`,
`P` after upper-casing) or a Y-coded year ≤ 6, `secondary` when some bound
is a Y-coded year ≥ 7, `combined` when both hold, `other` otherwise — and
satisfies the four quoted examples. -/
theorem C4_computeStage_rule :
    (∀ low high : Option String, computeStage low high = specStage low high) ∧
    computeStage (some "PP") (some "Y06") = "primary" ∧
    computeStage (some "Y07") (some "Y12") = "secondary" ∧
    computeStage (some "PP") (some "Y12") = "combined" ∧
    computeStage none none = "other" := by
  refine ⟨?_, by decide, by decide, by decide, by decide⟩
  intro low high
  simp only [computeStage, computeStageCore, specStage, specBoundPrimary, specBoundSecondary]
  simp only [Bool.or_assoc, Bool.or_left_comm, Bool.or_comm]

theorem routeType_of_noRouteKey {f : Feature} (h : noRouteKey f = true) : routeType f = "" := by
  unfold noRouteKey at h
  rw [Option.isNone_iff_eq_none] at h
  simp [routeType, h]

theorem transit_partition_total (d : GeoCollection) (hne : d.features ≠ [])
    (h1 : d.features.filter (fun f => routeType f == "train") = [])
    (h2 : d.features.filter
      (fun f => ["standard", "cat", "school"].contains (routeType f)) = [])
    (h3 : d.features.filter
      (fun f => !(["train", "standard", "cat", "school"].contains (routeType f))) = []) :
    False := by
  obtain ⟨f, hf⟩ := List.exists_mem_of_ne_nil _ hne
  rw [List.filter_eq_nil_iff] at h1 h2 h3
  have n1 := h1 f hf
  have n2 := h2 f hf
  have n3 := h3 f hf
  simp at n1 n2 n3
  tauto

/-- Claim **C1 (amended)**: the `all` fallback key is never produced for ANY feed
(the `other` predicate already catches every feature the `train`/`bus`
filters miss, so the three groups cannot all be empty on a nonempty feed);
in particular a feed in which no feature carries a non-null value under any
of the three route-type keys yields the single key `other`, whose collection
contains every original feature in original order (and an empty mapping for
an empty feed) — not the claimed `all` key. -/
theorem C1_transit_fallback_amended :
    (∀ data : Option GeoCollection, (groupTransitLayers data).all = none) ∧
    (∀ d : GeoCollection, (∀ f ∈ d.features, noRouteKey f = true) →
      groupTransitLayers (some d) =
        (if d.features.isEmpty then {} else { other := some ⟨d.features⟩ })) := by
  constructor
  · intro data
    match data with
    | none => rfl
    | some d =>
      by_cases hemp : d.features.isEmpty = true
      · simp [groupTransitLayers, hemp]
      · have hne : d.features ≠ [] := by simpa [List.isEmpty_iff] using hemp
        simp only [groupTransitLayers, hemp, Bool.false_eq_true, if_false]
        set tl := d.features.filter (fun f => routeType f == "train") with htl
        set bl := d.features.filter
          (fun f => ["standard", "cat", "school"].contains (routeType f)) with hbl
        set ol := d.features.filter
          (fun f => !(["train", "standard", "cat", "school"].contains (routeType f))) with hol
        by_cases h1 : tl.length = 0 <;> by_cases h2 : bl.length = 0 <;>
          by_cases h3 : ol.length = 0
        · exact (transit_partition_total d hne
            (htl.symm.trans (List.length_eq_zero.mp h1))
            (hbl.symm.trans (List.length_eq_zero.mp h2))
            (hol.symm.trans (List.length_eq_zero.mp h3))).elim
        all_goals simp [h1, h2, h3]
  · intro d h
    by_cases hemp : d.features.isEmpty = true
    · rw [List.isEmpty_iff] at hemp
      simp [groupTransitLayers, hemp]
    · have hne : d.features ≠ [] := by simpa [List.isEmpty_iff] using hemp
      have hrt : ∀ f ∈ d.features, routeType f = "" := fun f hf =>
        routeType_of_noRouteKey (h f hf)
      have ht : d.features.filter (fun f => routeType f == "train") = [] := by
        rw [List.filter_eq_nil_iff]
        intro f hf
        simp [hrt f hf]
      have hb : d.features.filter
          (fun f => ["standard", "cat", "school"].contains (routeType f)) = [] := by
        rw [List.filter_eq_nil_iff]
        intro f hf
        simp [hrt f hf]
      have ho : d.features.filter
          (fun f => !(["train", "standard", "cat", "school"].contains (routeType f))) =
            d.features := by
        rw [List.filter_eq_self]
        intro f hf
        simp [hrt f hf]
      simp only [groupTransitLayers, hemp, Bool.false_eq_true, if_false, ht, hb, ho]
      simp [hne, List.length_eq_zero, List.isEmpty_iff]

/-- Claim **C1 (counterexample)**: a one-feature feed with no route-type key does
NOT come back as the single fallback key `all` — the fallback branch is
unreachable — it comes back under `other`. -/
theorem C1_transit_fallback_counterexample :
    (groupTransitLayers (some transitBareFeed)).all = none ∧
    (groupTransitLayers (some transitBareFeed)).other = some ⟨[transitBareFeature]⟩ := by
  exact ⟨rfl, rfl⟩

/-- Claim **C1 (witness)**: the amended theorem applied to the concrete bare feed. -/
theorem C1_transit_fallback_witness :
    (∀ f ∈ transitBareFeed.features, noRouteKey f = true) ∧
    groupTransitLayers (some transitBareFeed) =
      (if transitBareFeed.features.isEmpty then {}
       else { other := some ⟨transitBareFeed.features⟩ }) :=
  ⟨by decide, C1_transit_fallback_amended.2 transitBareFeed (by decide)⟩

/-- Claim **C8**: `summarizeCatchments` collects each of the `primary` / `high` /
`other` groups by exact (strict-equality) match on the `catchment_level`
property, omits every empty group from the output mapping (the key list is
exactly the non-empty levels, in the fixed order), and each present key maps
to exactly the matching features in original order; in particular a feed with
only `catchment_level = "primary"` features yields a mapping with only the
`primary` key. -/
theorem C8_summarizeCatchments_groups (d : GeoCollection) (h : d.features ≠ []) :
    (∀ level ∈ (["primary", "high", "other"] : List String),
      (summarizeCatchments (some d)).layers.lookup level =
        (if (catchMatches d level).isEmpty then none
         else some ⟨catchMatches d level⟩)) ∧
    (summarizeCatchments (some d)).layers.map Prod.fst =
      (["primary", "high", "other"] : List String).filter
        (fun level => !(catchMatches d level).isEmpty) := by
  have hne : ¬ d.features.isEmpty = true := by simpa [List.isEmpty_iff] using h
  by_cases h1 : d.features.filter
      (fun f => jsGet (f.properties.getD []) "catchment_level" == .str "primary") = [] <;>
    by_cases h2 : d.features.filter
      (fun f => jsGet (f.properties.getD []) "catchment_level" == .str "high") = [] <;>
      by_cases h3 : d.features.filter
        (fun f => jsGet (f.properties.getD []) "catchment_level" == .str "other") = []
  all_goals constructor
  all_goals try (intro level hlevel; fin_cases hlevel)
  all_goals
    simp [summarizeCatchments, hne, catchMatches, h1, h2, h3, List.length_eq_zero,
      List.lookup]

/-- Claim **C8 (witness)**: the theorem applied to the one-feature `primary` feed. -/
theorem C8_summarizeCatchments_witness :
    primaryCatchFeed.features ≠ [] ∧
    ((∀ level ∈ (["primary", "high", "other"] : List String),
      (summarizeCatchments (some primaryCatchFeed)).layers.lookup level =
        (if (catchMatches primaryCatchFeed level).isEmpty then none
         else some ⟨catchMatches primaryCatchFeed level⟩)) ∧
    (summarizeCatchments (some primaryCatchFeed)).layers.map Prod.fst =
      (["primary", "high", "other"] : List String).filter
        (fun level => !(catchMatches primaryCatchFeed level).isEmpty)) :=
  ⟨List.cons_ne_nil _ _,
   C8_summarizeCatchments_groups primaryCatchFeed (List.cons_ne_nil _ _)⟩

theorem lookup_none_of_any_false {props : JProps} {k : String}
    (h : props.any (fun kv => kv.1 = k) = false) : props.lookup k = none := by
  induction props with
  | nil => rfl
  | cons kv t ih =>
    simp only [List.any_cons, Bool.or_eq_false_iff, decide_eq_false_iff_not] at h
    simp only [List.lookup]
    rw [beq_false_of_ne (Ne.symm h.1)]
    exact ih (by simpa using h.2)

theorem lookup_append_props (l1 l2 : JProps) (a : String) :
    (l1 ++ l2).lookup a =
      (match l1.lookup a with
        | some v => some v
        | none => l2.lookup a) := by
  induction l1 with
  | nil => rfl
  | cons kv t ih =>
    simp only [List.cons_append, List.lookup]
    cases hk : a == kv.1 <;> simp [ih]

theorem lookup_map_update {props : JProps} {k : String} (v : JsVal)
    (h : props.any (fun kv => kv.1 = k) = true) :
    (props.map (fun kv => if kv.1 = k then (kv.1, v) else kv)).lookup k = some v := by
  induction props with
  | nil => simp at h
  | cons kv t ih =>
    rw [List.map_cons]
    by_cases hk : kv.1 = k
    · rw [if_pos hk]
      simp [List.lookup, hk]
    · rw [if_neg hk]
      simp only [List.lookup]
      rw [show (k == kv.1) = false from beq_false_of_ne (Ne.symm hk)]
      apply ih
      simp only [List.any_cons, Bool.or_eq_true, decide_eq_true_eq] at h
      rcases h with h | h
      · exact absurd h hk
      · exact h

theorem lookup_map_update_other {props : JProps} {k k' : String} (v : JsVal)
    (h : ¬ k' = k) :
    (props.map (fun kv => if kv.1 = k then (kv.1, v) else kv)).lookup k' =
      props.lookup k' := by
  induction props with
  | nil => rfl
  | cons kv t ih =>
    rw [List.map_cons]
    by_cases hk : kv.1 = k
    · rw [if_pos hk]
      simp only [List.lookup]
      rw [show (k' == kv.1) = false from beq_false_of_ne (fun he => h (he.trans hk))]
      exact ih
    · rw [if_neg hk]
      simp only [List.lookup]
      cases hbe : k' == kv.1 <;> simp [ih]

theorem jsGet_jsSet_same (props : JProps) (k : String) (v : JsVal) :
    jsGet (jsSet props k v) k = v := by
  unfold jsSet jsGet
  by_cases h : props.any (fun kv => kv.1 = k) = true
  · rw [if_pos h, lookup_map_update v h]
    rfl
  · rw [if_neg h, lookup_append_props]
    rw [lookup_none_of_any_false (Bool.eq_false_iff.mpr h)]
    simp [List.lookup]

theorem jsGet_jsSet_other (props : JProps) (k k' : String) (v : JsVal) (h : ¬ k' = k) :
    jsGet (jsSet props k v) k' = jsGet props k' := by
  unfold jsSet jsGet
  by_cases ha : props.any (fun kv => kv.1 = k) = true
  · rw [if_pos ha, lookup_map_update_other v h]
  · rw [if_neg ha, lookup_append_props]
    cases hp : props.lookup k' with
    | some w => rfl
    | none =>
      simp only [List.lookup]
      rw [beq_false_of_ne h]

theorem stageRel_of_stageFill {f f' : Feature} (heq : stageFill f = .ok f') :
    stageRel f f' := by
  unfold stageFill at heq
  by_cases h : (jsGet (f.properties.getD []) "stage").truthy = true
  · rw [if_pos h] at heq
    simp only [Except.ok.injEq] at heq
    simp only [stageRel, if_pos h]
    cases hp : f.properties with
    | none =>
      rw [hp] at h
      simp [jsGet, JsVal.truthy] at h
    | some ps =>
      rw [hp] at heq
      cases f
      simp at hp
      subst hp
      simp [← heq]
  · rw [if_neg h] at heq
    cases hcs : computeStageJs (jsGet (f.properties.getD []) "lowyear")
        (jsGet (f.properties.getD []) "highyear") with
    | error e =>
      rw [hcs] at heq
      simp [Bind.bind, Except.bind] at heq
    | ok st =>
      rw [hcs] at heq
      simp only [Bind.bind, Except.bind, Except.ok.injEq] at heq
      simp only [stageRel, if_neg h]
      refine ⟨by rw [← heq], st, hcs, ?_, ?_⟩
      · rw [← heq]
        simpa using jsGet_jsSet_same (f.properties.getD []) "stage" (.str st)
      · intro k hk
        rw [← heq]
        simpa using jsGet_jsSet_other (f.properties.getD []) "stage" k (.str st) hk

theorem mapFeatures_forall2 : ∀ {fs fs' : List Feature},
    mapFeatures fs = .ok fs' → List.Forall₂ stageRel fs fs' := by
  intro fs
  induction fs with
  | nil =>
    intro fs' h
    simp only [mapFeatures, Except.ok.injEq] at h
    rw [← h]
    exact List.Forall₂.nil
  | cons f t ih =>
    intro fs' h
    unfold mapFeatures at h
    cases hf : stageFill f with
    | error e => rw [hf] at h; simp [Bind.bind, Except.bind] at h
    | ok f' =>
      rw [hf] at h
      cases ht : mapFeatures t with
      | error e => rw [ht] at h; simp [Bind.bind, Except.bind] at h
      | ok t' =>
        rw [ht] at h
        simp only [Bind.bind, Except.bind, Except.ok.injEq] at h
        rw [← h]
        exact List.Forall₂.cons (stageRel_of_stageFill hf) (ih ht)

/-- Claim **C3 (amended)**: `ensureSchoolStages` preserves the number and order of
features; a feature whose `stage` property is TRUTHY (a nonempty string, a
non-zero number, `true`) is returned unchanged with all its properties, and
a feature whose `stage` is absent — or present but falsy (`""`, `null`, `0`,
`false`, NaN), which the claim said would be kept — gains the stage computed
by `computeStage` from its `lowyear`/`highyear` codes, with every other
property unchanged. -/
theorem C3_ensureStages_amended (c c' : GeoCollection)
    (h : ensureSchoolStages (some c) = .ok (some c')) :
    c'.features.length = c.features.length ∧
    List.Forall₂ stageRel c.features c'.features := by
  simp only [ensureSchoolStages] at h
  cases hm : mapFeatures c.features with
  | error e => rw [hm] at h; simp [Bind.bind, Except.bind] at h
  | ok fs =>
    rw [hm] at h
    simp only [Bind.bind, Except.bind, Except.ok.injEq, Option.some.injEq] at h
    have h2 := mapFeatures_forall2 hm
    rw [← h]
    exact ⟨(List.Forall₂.length_eq h2).symm, h2⟩

/-- Claim **C3 (counterexample)**: a feature that carries `stage: ""` — it carries
a `stage` property — does not keep its original stage value: the falsy check
`!feature.properties.stage` overwrites it with the computed `"secondary"`. -/
theorem C3_ensureStages_counterexample :
    ensureSchoolStages (some emptyStageColl) = .ok (some emptyStageCollOut) ∧
    jsGet (emptyStageFeature.properties.getD []) "stage" = .str "" ∧
    jsGet (emptyStageFeatureOut.properties.getD []) "stage" = .str "secondary" :=
  ⟨rfl, rfl, rfl⟩

/-- Claim **C3 (witness)**: the amended theorem applied to a concrete two-feature
collection, one feature with a truthy stage and one without any. -/
theorem C3_ensureStages_witness :
    ensureSchoolStages (some schoolsWitColl) = .ok (some schoolsWitCollOut) ∧
    (schoolsWitCollOut.features.length = schoolsWitColl.features.length ∧
     List.Forall₂ stageRel schoolsWitColl.features schoolsWitCollOut.features) :=
  ⟨rfl, C3_ensureStages_amended schoolsWitColl schoolsWitCollOut rfl⟩

theorem map_fst_update (m : List (String × ℕ)) (k : String) :
    (m.map (fun kv => if kv.1 = k then (kv.1, kv.2 + 1) else kv)).map Prod.fst =
      m.map Prod.fst := by
  induction m with
  | nil => rfl
  | cons kv t ih =>
    simp only [List.map_cons, ih]
    by_cases hk : kv.1 = k
    · rw [if_pos hk]
    · rw [if_neg hk]

theorem bump_keys_of_mem {m : List (String × ℕ)} {k : String}
    (h : m.any (fun kv => kv.1 = k) = true) :
    (bump m k).map Prod.fst = m.map Prod.fst := by
  unfold bump
  rw [if_pos h, map_fst_update]

theorem bump_keys_sub (m : List (String × ℕ)) (k : String) :
    ∀ k' ∈ (bump m k).map Prod.fst, k' ∈ m.map Prod.fst ∨ k' = k := by
  unfold bump
  by_cases h : m.any (fun kv => kv.1 = k) = true
  · rw [if_pos h, map_fst_update]
    exact fun k' hk' => Or.inl hk'
  · rw [if_neg h]
    intro k' hk'
    simp only [List.map_append, List.mem_append] at hk'
    rcases hk' with hk' | hk'
    · exact Or.inl hk'
    · simp at hk'
      exact Or.inr hk'

theorem any_fst_of_mem {β : Type} {m : List (String × β)} {k : String}
    (h : k ∈ m.map Prod.fst) :
    m.any (fun kv => kv.1 = k) = true := by
  simp only [List.any_eq_true, decide_eq_true_eq]
  simpa [List.mem_map] using h

theorem schoolsFold_stage_keys :
    ∀ (fs : List Feature) (acc out : SchoolCounts),
      "other" ∈ acc.stageCounts.map Prod.fst →
      schoolsFold acc fs = .ok out →
      out.stageCounts.map Prod.fst = acc.stageCounts.map Prod.fst := by
  intro fs
  induction fs with
  | nil =>
    intro acc out hother h
    simp only [schoolsFold, Except.ok.injEq] at h
    rw [← h]
  | cons f t ih =>
    intro acc out hother h
    unfold schoolsFold at h
    cases hs : schoolStep acc f with
    | error e => rw [hs] at h; simp [Bind.bind, Except.bind] at h
    | ok acc' =>
      rw [hs] at h
      simp only [Bind.bind, Except.bind] at h
      have hkeys : acc'.stageCounts.map Prod.fst = acc.stageCounts.map Prod.fst := by
        simp only [schoolStep] at hs
        cases hst : stageKeyOrThrow (jsGet (f.properties.getD []) "stage") with
        | error e => rw [hst] at hs; simp [Bind.bind, Except.bind] at hs
        | ok stk =>
          rw [hst] at hs
          simp only [Bind.bind, Except.bind, Except.ok.injEq] at hs
          rw [← hs]
          by_cases hmem : acc.stageCounts.any (fun kv => kv.1 = stk) = true
          · simp only [if_pos hmem]
            exact bump_keys_of_mem hmem
          · simp only [if_neg hmem]
            exact bump_keys_of_mem (any_fst_of_mem hother)
      have hrec := ih acc' out (by rw [hkeys]; exact hother) h
      rw [hrec, hkeys]

theorem schoolsFold_hist_keys :
    ∀ (fs : List Feature) (acc out : SchoolCounts),
      schoolsFold acc fs = .ok out →
      (∀ k ∈ out.sectorCounts.map Prod.fst,
        k ∈ acc.sectorCounts.map Prod.fst ∨
          (¬ k = "" ∧ ∃ f ∈ fs, blankableKey (jsGet (f.properties.getD []) "sector") = k)) ∧
      (∀ k ∈ out.remoteCounts.map Prod.fst,
        k ∈ acc.remoteCounts.map Prod.fst ∨
          (¬ k = "" ∧ ∃ f ∈ fs,
            blankableKey (jsGet (f.properties.getD []) "remotearea") = k)) := by
  intro fs
  induction fs with
  | nil =>
    intro acc out h
    simp only [schoolsFold, Except.ok.injEq] at h
    rw [← h]
    exact ⟨fun k hk => Or.inl hk, fun k hk => Or.inl hk⟩
  | cons f t ih =>
    intro acc out h
    unfold schoolsFold at h
    cases hs : schoolStep acc f with
    | error e => rw [hs] at h; simp [Bind.bind, Except.bind] at h
    | ok acc' =>
      rw [hs] at h
      simp only [Bind.bind, Except.bind] at h
      have hsec : acc'.sectorCounts =
          (if blankableKey (jsGet (f.properties.getD []) "sector") ≠ "" then
            bump acc.sectorCounts (blankableKey (jsGet (f.properties.getD []) "sector"))
          else acc.sectorCounts) ∧
          acc'.remoteCounts =
          (if blankableKey (jsGet (f.properties.getD []) "remotearea") ≠ "" then
            bump acc.remoteCounts (blankableKey (jsGet (f.properties.getD []) "remotearea"))
          else acc.remoteCounts) := by
        simp only [schoolStep] at hs
        cases hst : stageKeyOrThrow (jsGet (f.properties.getD []) "stage") with
        | error e => rw [hst] at hs; simp [Bind.bind, Except.bind] at hs
        | ok stk =>
          rw [hst] at hs
          simp only [Bind.bind, Except.bind, Except.ok.injEq] at hs
          rw [← hs]
          exact ⟨rfl, rfl⟩
      obtain ⟨ihs, ihr⟩ := ih acc' out h
      constructor
      · intro k hk
        rcases ihs k hk with hk' | ⟨hne, g, hg, hbk⟩
        · rw [hsec.1] at hk'
          by_cases hb : blankableKey (jsGet (f.properties.getD []) "sector") ≠ ""
          · rw [if_pos hb] at hk'
            rcases bump_keys_sub _ _ k hk' with hk'' | rfl
            · exact Or.inl hk''
            · exact Or.inr ⟨hb, f, List.mem_cons_self f t, rfl⟩
          · rw [if_neg hb] at hk'
            exact Or.inl hk'
        · exact Or.inr ⟨hne, g, List.mem_cons_of_mem f hg, hbk⟩
      · intro k hk
        rcases ihr k hk with hk' | ⟨hne, g, hg, hbk⟩
        · rw [hsec.2] at hk'
          by_cases hb : blankableKey (jsGet (f.properties.getD []) "remotearea") ≠ ""
          · rw [if_pos hb] at hk'
            rcases bump_keys_sub _ _ k hk' with hk'' | rfl
            · exact Or.inl hk''
            · exact Or.inr ⟨hb, f, List.mem_cons_self f t, rfl⟩
          · rw [if_neg hb] at hk'
            exact Or.inl hk'
        · exact Or.inr ⟨hne, g, List.mem_cons_of_mem f hg, hbk⟩

/-- Claim **C10**: `summarizeSchools` returns `null` — never a summary with count
0 — exactly when the input collection is `null` or has zero features; every
summary it does return has `count` equal to the feature count, a
`stageCounts` histogram whose keys are exactly the four fixed stages
`primary`, `secondary`, `combined`, `other` (zero counts included), and
`sectorCounts` / `remoteCounts` histograms containing only keys that
actually occurred as the non-blank trimmed sector / remote-area value of
some feature. -/
theorem C10_summarizeSchools_shape (oc : Option GeoCollection) :
    (summarizeSchools oc = .ok none ↔ (∀ c, oc = some c → c.features = [])) ∧
    (∀ c s, oc = some c → summarizeSchools oc = .ok (some s) →
      s.count = c.features.length ∧
      s.stageCounts.map Prod.fst = ["primary", "secondary", "combined", "other"] ∧
      (∀ k ∈ s.sectorCounts.map Prod.fst,
        ¬ k = "" ∧ ∃ f ∈ c.features,
          blankableKey (jsGet (f.properties.getD []) "sector") = k) ∧
      (∀ k ∈ s.remoteCounts.map Prod.fst,
        ¬ k = "" ∧ ∃ f ∈ c.features,
          blankableKey (jsGet (f.properties.getD []) "remotearea") = k)) := by
  constructor
  · match oc with
    | none => simp [summarizeSchools]
    | some c =>
      by_cases hemp : c.features.isEmpty = true
      · rw [List.isEmpty_iff] at hemp
        simp [summarizeSchools, hemp]
      · simp only [summarizeSchools, hemp, Bool.false_eq_true, if_false]
        constructor
        · intro h
          cases hf : schoolsFold ⟨[], [], initStageCounts⟩ c.features with
          | error e => rw [hf] at h; simp [Bind.bind, Except.bind] at h
          | ok counts => rw [hf] at h; simp [Bind.bind, Except.bind] at h
        · intro h
          rw [List.isEmpty_iff] at hemp
          exact absurd (h c rfl) hemp
  · intro c s hoc hs
    subst hoc
    by_cases hemp : c.features.isEmpty = true
    · simp [summarizeSchools, hemp] at hs
    · simp only [summarizeSchools, hemp, Bool.false_eq_true, if_false] at hs
      cases hf : schoolsFold ⟨[], [], initStageCounts⟩ c.features with
      | error e => rw [hf] at hs; simp [Bind.bind, Except.bind] at hs
      | ok counts =>
        rw [hf] at hs
        simp only [Bind.bind, Except.bind, Except.ok.injEq, Option.some.injEq] at hs
        obtain ⟨hsec, hrem⟩ := schoolsFold_hist_keys c.features ⟨[], [], initStageCounts⟩
          counts hf
        have hstage := schoolsFold_stage_keys c.features ⟨[], [], initStageCounts⟩
          counts (by decide) hf
        rw [← hs]
        refine ⟨rfl, hstage, ?_, ?_⟩
        · intro k hk
          rcases hsec k hk with hk' | hgood
          · simp at hk'
          · exact hgood
        · intro k hk
          rcases hrem k hk with hk' | hgood
          · simp at hk'
          · exact hgood

/-- Claim **C10 (witness)**: the theorem applied to a one-feature collection with a
sector and no stage. -/
theorem C10_summarizeSchools_witness :
    summarizeSchools (some sectorColl) = .ok (some sectorSummary) ∧
    (sectorSummary.count = sectorColl.features.length ∧
     sectorSummary.stageCounts.map Prod.fst =
       ["primary", "secondary", "combined", "other"] ∧
     (∀ k ∈ sectorSummary.sectorCounts.map Prod.fst,
       ¬ k = "" ∧ ∃ f ∈ sectorColl.features,
         blankableKey (jsGet (f.properties.getD []) "sector") = k) ∧
     (∀ k ∈ sectorSummary.remoteCounts.map Prod.fst,
       ¬ k = "" ∧ ∃ f ∈ sectorColl.features,
         blankableKey (jsGet (f.properties.getD []) "remotearea") = k)) :=
  ⟨rfl, (C10_summarizeSchools_shape (some sectorColl)).2 sectorColl sectorSummary rfl rfl⟩

theorem insertUnique_nodup {l : List String} {s : String} (h : l.Nodup) :
    (insertUnique l s).Nodup := by
  unfold insertUnique
  by_cases hm : s ∈ l
  · rw [if_pos hm]
    exact h
  · rw [if_neg hm]
    simp [List.nodup_append, h, hm]

theorem map_fst_preserved {β : Type} (m : List (String × β)) (upd : String × β → String × β)
    (h : ∀ kv, (upd kv).1 = kv.1) : (m.map upd).map Prod.fst = m.map Prod.fst := by
  induction m with
  | nil => rfl
  | cons kv t ih => simp only [List.map_cons, ih, h kv]

theorem upsertSa2_inv {m : List (String × List String)} {state : String}
    {sa2 : Option String}
    (h1 : (m.map Prod.fst).Nodup) (h2 : ∀ p ∈ m, p.2.Nodup) :
    ((upsertSa2 m state sa2).map Prod.fst).Nodup ∧
      ∀ p ∈ upsertSa2 m state sa2, p.2.Nodup := by
  unfold upsertSa2
  by_cases hm : m.any (fun kv => kv.1 = state) = true
  · rw [if_pos hm]
    constructor
    · rw [map_fst_preserved]
      · exact h1
      · intro kv
        by_cases hk : kv.1 = state
        · rw [if_pos hk]
        · rw [if_neg hk]
    · intro p hp
      simp only [List.mem_map] at hp
      obtain ⟨q, hq, rfl⟩ := hp
      by_cases hk : q.1 = state
      · rw [if_pos hk]
        cases sa2 with
        | none => exact h2 q hq
        | some v => exact insertUnique_nodup (h2 q hq)
      · rw [if_neg hk]
        exact h2 q hq
  · rw [if_neg hm]
    constructor
    · rw [List.map_append, List.map_singleton]
      have hnotin : state ∉ m.map Prod.fst := fun hmem => hm (any_fst_of_mem hmem)
      simp [List.nodup_append, h1, hnotin]
    · intro p hp
      simp only [List.mem_append, List.mem_singleton] at hp
      rcases hp with hp | hp
      · exact h2 p hp
      · rw [hp]
        cases sa2 with
        | none => exact List.nodup_nil
        | some v => simp

theorem metaFold_sa2_inv (fs : List Feature) :
    ∀ acc : MetaAcc,
      ((acc.sa2ByState.map Prod.fst).Nodup ∧ ∀ p ∈ acc.sa2ByState, p.2.Nodup) →
      (((fs.foldl metaStep acc).sa2ByState.map Prod.fst).Nodup ∧
        ∀ p ∈ (fs.foldl metaStep acc).sa2ByState, p.2.Nodup) := by
  induction fs with
  | nil => intro acc h; exact h
  | cons f t ih =>
    intro acc h
    rw [List.foldl_cons]
    apply ih
    simp only [metaStep]
    by_cases htr : (jsGet (f.properties.getD []) "STE_NAME21").truthy = true
    · rw [if_pos htr]
      exact upsertSa2_inv h.1 h.2
    · rw [if_neg htr]
      exact h

/-- Claim **C5**: the observable ordering content of `buildMetadata`'s determinism
clause — determinism itself holds definitionally, since the embedding is a
pure function of the input collection — is that the set-to-sequence
conversions use the stated sort order rather than insertion order: the
`states` list is sorted (by the JS default string comparator `strLe`) and
duplicate-free, and so is every `sa2ByState` entry. -/
theorem C5_buildMetadata_sorted (data : GeoCollection) :
    List.Sorted strLe (buildMetadata data).states ∧
    (buildMetadata data).states.Nodup ∧
    ∀ p ∈ (buildMetadata data).sa2ByState, List.Sorted strLe p.2 ∧ p.2.Nodup := by
  have hinv := metaFold_sa2_inv data.features ⟨[], [], []⟩ (by simp)
  simp only [buildMetadata, sortStrings]
  refine ⟨List.sorted_insertionSort strLe _, ?_, ?_⟩
  · exact ((List.perm_insertionSort strLe _).nodup_iff).mpr hinv.1
  · intro p hp
    simp only [List.mem_map] at hp
    obtain ⟨q, hq, hpq⟩ := hp
    rw [← hpq]
    exact ⟨List.sorted_insertionSort strLe _,
      ((List.perm_insertionSort strLe _).nodup_iff).mpr (hinv.2 q hq)⟩

/-- Claim **C5 (witness)**: the theorem applied to a concrete two-state collection
given in reverse alphabetical order. -/
theorem C5_buildMetadata_sorted_witness :
    ("B", ["x"]) ∈ (buildMetadata metaWitColl).sa2ByState ∧
    (List.Sorted strLe (("B", ["x"]) : String × List String).2 ∧
      (("B", ["x"]) : String × List String).2.Nodup) :=
  ⟨by decide, (C5_buildMetadata_sorted metaWitColl).2.2 ("B", ["x"]) (by decide)⟩

/-- Claim **C6 (amended)**: the load orchestrator raises the hard SA1 failure
whenever the primary polygon dataset fetch yields `null`; with the primary
dataset present, the load fails exactly when the school-stage pipeline
(`ensureSchoolStages` followed by `summarizeSchools`) raises — a missing or
failed fetch of a secondary GeoJSON dataset never fails the load; every
successful load records the per-dataset warning strings for the missing
transit / schools / catchment datasets (and no transit warning when transit
is present), while a missing ArcGIS manifest is replaced by an empty
manifest with no warning; and with the schools dataset missing the load
always succeeds. -/
theorem C6_loadMapData_failure_policy (t s cs : Option GeoCollection)
    (m : Option ArcgisManifest) (sa1c : GeoCollection) :
    loadMapData none t s cs m =
      .error "SA1 dataset is required. Ensure assets are generated under /assets." ∧
    (∀ e, loadMapData (some sa1c) t s cs m = .error e ↔
      (ensureSchoolStages s >>= summarizeSchools) = .error e) ∧
    (∀ md, loadMapData (some sa1c) t s cs m = .ok md →
      (t = none → md.transitWarning = some "Transit GeoJSON missing from assets.") ∧
      (t ≠ none → md.transitWarning = none) ∧
      (s = none → md.schoolsWarning = some "Schools GeoJSON missing from assets.") ∧
      (cs = none → md.catchmentsWarning = some "Catchment GeoJSON not found or empty.") ∧
      (m = none → md.arcgisManifest = ⟨[]⟩)) ∧
    (s = none → ∃ md, loadMapData (some sa1c) t s cs m = .ok md ∧
      md.schoolsWarning = some "Schools GeoJSON missing from assets.") := by
  refine ⟨rfl, ?_, ?_, ?_⟩
  · intro e
    simp only [loadMapData]
    cases hE : ensureSchoolStages s with
    | error e' => simp [Bind.bind, Except.bind]
    | ok st =>
      cases hS : summarizeSchools st with
      | error e' => simp [Bind.bind, Except.bind, hS]
      | ok ss => simp [Bind.bind, Except.bind, hS]
  · intro md hmd
    simp only [loadMapData] at hmd
    cases hE : ensureSchoolStages s with
    | error e' => rw [hE] at hmd; simp [Bind.bind, Except.bind] at hmd
    | ok st =>
      rw [hE] at hmd
      simp only [Bind.bind, Except.bind] at hmd
      cases hS : summarizeSchools st with
      | error e' => rw [hS] at hmd; simp at hmd
      | ok ss =>
        rw [hS] at hmd
        simp only [Except.ok.injEq] at hmd
        rw [← hmd]
        refine ⟨?_, ?_, ?_, ?_, ?_⟩
        · intro ht
          subst ht
          simp
        · intro ht
          cases t with
          | none => exact absurd rfl ht
          | some tc => simp
        · intro hsn
          subst hsn
          have hst : st = none := by
            simp only [ensureSchoolStages, Except.ok.injEq] at hE
            exact hE.symm
          subst hst
          simp
        · intro hcs
          subst hcs
          simp [summarizeCatchments]
        · intro hm
          subst hm
          simp [loadArcgisManifest]
  · intro hsn
    subst hsn
    exact ⟨_, rfl, rfl⟩

/-- Claim **C6 (counterexample)**: with the primary SA1 dataset present and
parseable, the load can still fail — a schools dataset whose feature carries
the numeric `stage: 5` survives the stage back-fill (5 is truthy) and then
`(props.stage || "other").toLowerCase()` raises a TypeError, rejecting the
whole load; the claim says the load fails only when the primary dataset is
missing or unparseable. -/
theorem C6_loadMapData_counterexample :
    loadMapData (some emptySa1) none (some numericStageColl) none none =
      .error "TypeError: stage.toLowerCase is not a function" := rfl

/-- Claim **C6 (witness)**: the amended theorem applied at concrete inputs —
missing SA1 fails the load; SA1 present with all secondary fetches missing
succeeds with the schools warning recorded. -/
theorem C6_loadMapData_witness :
    loadMapData none none none none none =
      .error "SA1 dataset is required. Ensure assets are generated under /assets." ∧
    ∃ md, loadMapData (some emptySa1) none none none none = .ok md ∧
      md.schoolsWarning = some "Schools GeoJSON missing from assets." :=
  ⟨(C6_loadMapData_failure_policy none none none none emptySa1).1,
   (C6_loadMapData_failure_policy none none none none emptySa1).2.2.2 rfl⟩
